import Mathlib

/-!
Verification development for the GRF_Analysis repository.

The repository consists of two scripts:
* `scripts/create_synthetic_dataset.py` — generates a synthetic table of
  COVID-19 genetic risk variant records and a per-gene summary table;
* `scripts/test_tutorial.py` — exercises the analysis pipeline: gene-level
  aggregation, pathway enrichment, random interaction-network construction,
  guarded centrality metrics, and a composite risk score.

The Python scripts are shallowly embedded below.  Pseudo-randomness is made
explicit: the `random` module is modelled by a stream `c : ℕ → ℕ` of raw
draws (each call site reduces the draw into its range exactly as the
library does), and `numpy.random` by a stream `u : ℕ → ℚ` of raw samples
from `[0, 1)`; `numpy.random.uniform(lo, hi)` returns `lo + u * (hi - lo)`,
mirroring numpy's documented `(b - a) * random_sample() + a` over the
half-open unit interval.  Python floats are idealised as rationals (reals
where a logarithm is required).
-/

namespace GRF

/-- Model of `random.randint(a, b)` (both endpoints inclusive) fed by one
raw draw `v` from the `random`-module stream. -/
def randint (a b v : ℕ) : ℕ := a + v % (b - a + 1)

/-- Model of `random.choice(l)` fed by one raw draw `v`. -/
def choice (l : List String) (v : ℕ) : String := l.getD (v % l.length) ""

/-- Model of `numpy.random.uniform(lo, hi)` fed by one raw sample `v` of
`random_sample()`; numpy computes `(hi - lo) * random_sample() + lo` with
`random_sample() ∈ [0, 1)`. -/
def npUniform (lo hi v : ℚ) : ℚ := lo + v * (hi - lo)

/-- `chromosomes = [f"chr{i}" for i in range(1, 23)] + ["chrX", "chrY"]`. -/
def chromosomes : List String :=
  ((List.range 22).map fun i => "chr" ++ toString (i + 1)) ++ ["chrX", "chrY"]

/-- The fixed functional-consequence list of `create_synthetic_dataset.py`. -/
def functional_consequences : List String :=
  ["missense_variant", "synonymous_variant", "intron_variant",
   "upstream_gene_variant", "downstream_gene_variant", "3_prime_UTR_variant",
   "5_prime_UTR_variant", "splice_region_variant", "regulatory_region_variant"]

/-- The fixed COVID-19 gene list of `create_synthetic_dataset.py`. -/
def covid_genes : List String :=
  ["ACE2", "TMPRSS2", "IFNAR2", "TYK2", "OAS1", "OAS2", "OAS3", "IFIH1",
   "IRF7", "IRF3", "STAT1", "STAT2", "IL6", "IL1B", "TNF", "CCL2",
   "CXCL10", "IFNG", "IL10", "IL4", "IL13", "CD14", "TLR3", "TLR7",
   "TLR8", "MYD88", "IRAK4", "IRF8", "NLRP3", "CASP1", "IL18",
   "HMGB1", "S100A8", "S100A9", "LCN2", "RETN", "ADIPOQ", "LEP",
   "CRP", "SAA1", "APOE", "LDLR", "PCSK9", "ANGPT2", "VWF",
   "F8", "SERPINE1", "PLAT", "PLG", "FGB", "FGA", "FGG",
   "PROC", "PROS1", "THBD", "EPCR", "TFPI", "AT3", "PC"]

/-- The fixed related-disease list of `create_synthetic_dataset.py`. -/
def related_diseases : List String :=
  ["Severe COVID-19", "Respiratory failure", "ARDS", "Pneumonia",
   "Thrombosis", "Cardiovascular disease", "Diabetes", "Hypertension",
   "Immune deficiency", "Inflammatory response", "Cytokine storm",
   "Sepsis", "Multi-organ failure", "Coagulopathy"]

/-- The fixed study-population list used at the `study_population` call. -/
def study_populations : List String :=
  ["European", "East Asian", "Mixed", "Middle Eastern"]

/-- One row of the generated variant table (the dict appended to `data` in
`generate_covid_risk_variants`). -/
structure VariantRecord where
  rs_id : String
  chromosome : String
  pos : ℕ
  chromosomal_location : String
  functional_consequence : String
  host_gene : String
  p_value : ℚ
  allele_frequency : ℚ
  odds_ratio : ℚ
  related_disease : String
  study_population : String
  sample_size : ℕ
  deriving DecidableEq, Inhabited

/-- One loop iteration of `generate_covid_risk_variants`.  Iteration `i`
consumes `random`-module draws `c (8*i) .. c (8*i+7)` (in source order:
rs id, chromosome, position, consequence, host gene, disease, study
population, sample size) and numpy samples `u (3*i) .. u (3*i+2)` (in
source order: p value, allele frequency, odds ratio). -/
def genVariant (c : ℕ → ℕ) (u : ℕ → ℚ) (i : ℕ) : VariantRecord :=
  let rsNum := randint 1000000 99999999 (c (8 * i))
  let chrom := choice chromosomes (c (8 * i + 1))
  let position := randint 1000000 200000000 (c (8 * i + 2))
  { rs_id := "rs" ++ toString rsNum
    chromosome := chrom
    pos := position
    chromosomal_location := chrom ++ ":" ++ toString position
    functional_consequence := choice functional_consequences (c (8 * i + 3))
    host_gene := choice covid_genes (c (8 * i + 4))
    p_value := npUniform 1e-8 5e-5 (u (3 * i))
    related_disease := choice related_diseases (c (8 * i + 5))
    allele_frequency := npUniform 0.01 0.5 (u (3 * i + 1))
    odds_ratio := npUniform 1.1 3.5 (u (3 * i + 2))
    study_population := choice study_populations (c (8 * i + 6))
    sample_size := randint 500 50000 (c (8 * i + 7)) }

/-- `generate_covid_risk_variants(n_variants)`: the loop `for i in
range(n_variants)` appending one record per iteration. -/
def generate_covid_risk_variants (n : ℕ) (c : ℕ → ℕ) (u : ℕ → ℚ) :
    List VariantRecord :=
  (List.range n).map (genVariant c u)

/-- The records of `df` whose `host_gene` equals `g` — the group that
`df.groupby('host_gene')` forms for key `g` (and `df[df['host_gene'] == gene]`
in the risk-score loop). -/
def geneRecords (df : List VariantRecord) (g : String) : List VariantRecord :=
  df.filter fun r => r.host_gene == g

/-- The distinct `host_gene` values of the table (`df['host_gene'].unique()`
as a set). -/
def hostGenes (df : List VariantRecord) : Finset String :=
  (df.map (·.host_gene)).toFinset

/-- Minimum of a list of rationals, as pandas `Series.min()` computes it on
a non-empty column (the `[]` case is never reached by a groupby group). -/
def pmin : List ℚ → ℚ
  | [] => 0
  | [x] => x
  | x :: y :: xs => min x (pmin (y :: xs))

/-- Arithmetic mean of a list of rationals, as pandas `Series.mean()`
computes it on a non-empty column. -/
def pmean (l : List ℚ) : ℚ := l.sum / l.length

/-- `gene_summary` column `variant_count` (the `'rs_id': 'count'`
aggregation) for gene `g`. -/
def variant_count (df : List VariantRecord) (g : String) : ℕ :=
  (geneRecords df g).length

/-- `gene_summary` column `p_value` (the `'p_value': 'min'` aggregation)
for gene `g`. -/
def min_p_value (df : List VariantRecord) (g : String) : ℚ :=
  pmin ((geneRecords df g).map (·.p_value))

/-- `gene_summary` column `odds_ratio` (the `'odds_ratio': 'mean'`
aggregation) for gene `g`. -/
def mean_odds_ratio (df : List VariantRecord) (g : String) : ℚ :=
  pmean ((geneRecords df g).map (·.odds_ratio))

/-- `gene_summary` column `related_disease` in
`create_synthetic_dataset.py`: `', '.join(x.unique()[:3])`. -/
def gene_diseases (df : List VariantRecord) (g : String) : String :=
  String.intercalate ", "
    ((((geneRecords df g).map (·.related_disease)).dedup).take 3)

/-- The fixed pathway taxonomy `pathway_categories` of `test_tutorial.py`. -/
def pathway_categories : List (String × List String) :=
  [("Immune Response",
    ["IFNAR2", "TYK2", "OAS1", "OAS2", "OAS3", "IFIH1", "IRF7", "IRF3",
     "STAT1", "STAT2"]),
   ("Inflammatory Response",
    ["IL6", "IL1B", "TNF", "CCL2", "CXCL10", "IFNG", "IL10", "IL4", "IL13"]),
   ("Viral Entry", ["ACE2", "TMPRSS2"]),
   ("Innate Immunity", ["CD14", "TLR3", "TLR7"])]

/-- `overlap = len(set(genes) & set(unique_genes))` for one pathway, where
`unique_genes` are the dataset's distinct host genes. -/
def pathwayOverlap (genes : List String) (ug : Finset String) : ℕ :=
  (genes.toFinset ∩ ug).card

/-- `enrichment_score = overlap / total_pathway_genes if total_pathway_genes
> 0 else 0`, with `total_pathway_genes = len(genes)`. -/
def enrichment_score (genes : List String) (ug : Finset String) : ℚ :=
  if 0 < genes.length then (pathwayOverlap genes ug : ℚ) / genes.length else 0

/-- The undirected graph built by `create_test_network`: a networkx `Graph`
keeps its nodes in insertion order with duplicates ignored, and a set of
unordered edges. -/
structure TestGraph where
  nodes : List String
  edges : Finset (Sym2 String)

/-- The ordered list of gene pairs visited by the double loop
`for i, gene1 in enumerate(genes): for j, gene2 in enumerate(genes[i+1:],
i+1)`: each element of the list paired with every later element, in
source order. -/
def candidatePairs : List String → List (String × String)
  | [] => []
  | g :: rest => (rest.map fun h => (g, h)) ++ candidatePairs rest

/-- The loop body of `create_test_network` over the visited pairs: at
counter `k` the pair consumes sample `u k` for the Bernoulli test
`np.random.random() < interaction_probability`; when the test passes, the
edge weight `np.random.uniform(0.4, 0.95)` consumes the next sample and
the edge is added (networkx keeps one copy of an unordered edge, the weight
of a re-added edge is overwritten).  The state is the edge set together
with the weight assignments in insertion order. -/
def addRandomEdges (p : ℚ) (u : ℕ → ℚ) :
    List (String × String) → ℕ → Finset (Sym2 String) × List (Sym2 String × ℚ) →
      Finset (Sym2 String) × List (Sym2 String × ℚ)
  | [], _, st => st
  | (g1, g2) :: rest, k, (es, ws) =>
    if u k < p then
      addRandomEdges p u rest (k + 2)
        (insert (Sym2.mk (g1, g2)) es,
         ws ++ [(Sym2.mk (g1, g2), npUniform 0.4 0.95 (u (k + 1)))])
    else
      addRandomEdges p u rest (k + 1) (es, ws)

/-- `create_test_network(genes, interaction_probability)`: one
`G.add_node(gene)` per list element (networkx keeps one node per distinct
label), then the randomized edge loop. -/
def create_test_network (genes : List String) (p : ℚ) (u : ℕ → ℚ) :
    TestGraph :=
  { nodes := genes.dedup
    edges := (addRandomEdges p u (candidatePairs genes) 0 (∅, [])).1 }

/-- networkx degree of a node: the number of incident edges, a self-loop
counted twice. -/
def nodeDegree (G : TestGraph) (g : String) : ℕ :=
  ∑ e ∈ G.edges, (if g ∈ e then (if e.IsDiag then 2 else 1) else 0)

/-- `nx.degree_centrality(G)`: degree times `1 / (len(G) - 1)`, one value
per node. -/
def degree_centrality (G : TestGraph) : List (String × ℚ) :=
  G.nodes.map fun g =>
    (g, (nodeDegree G g : ℚ) / ((G.nodes.length : ℚ) - 1))

/-- The network-metrics step of the pipeline:
`if ppi_network.number_of_edges() > 0:` compute `nx.degree_centrality` and
`nx.betweenness_centrality`, `else` skip the computation.  Betweenness
centrality is a networkx-library collaborator, passed in as `bc`; the
guard decides whether it is invoked at all. -/
def networkMetricsStep (bc : TestGraph → List (String × ℚ))
    (G : TestGraph) : Option (List (String × ℚ) × List (String × ℚ)) :=
  if 0 < G.edges.card then some (degree_centrality G, bc G) else none

/-- `calculate_risk_score(gene_data)` of `test_tutorial.py`:
`p_score = -np.log10(gene_data['p_value'].min())`,
`or_score = gene_data['odds_ratio'].mean()`,
`variant_score = len(gene_data)`,
`risk_score = (p_score * 0.4) + (or_score * 0.4) + (variant_score * 0.2)`. -/
noncomputable def calculate_risk_score (gene_data : List VariantRecord) : ℝ :=
  (-Real.logb 10 ((pmin (gene_data.map (·.p_value)) : ℚ) : ℝ)) * 0.4
    + ((pmean (gene_data.map (·.odds_ratio)) : ℚ) : ℝ) * 0.4
    + (gene_data.length : ℝ) * 0.2

/-- A concrete one-row fixture used to instantiate the theorems below. -/
def sampleRecord (g : String) (p oddsr : ℚ) : VariantRecord :=
  { rs_id := "rs1000000"
    chromosome := "chr1"
    pos := 1000000
    chromosomal_location := "chr1:1000000"
    functional_consequence := "missense_variant"
    host_gene := g
    p_value := p
    allele_frequency := 1/10
    odds_ratio := oddsr
    related_disease := "ARDS"
    study_population := "European"
    sample_size := 500 }

/-- A two-gene, three-record fixture with a known minimum per gene. -/
def fixtureDf : List VariantRecord :=
  [sampleRecord "ACE2" (3/100) 2, sampleRecord "ACE2" (1/100) 3,
   sampleRecord "IL6" (2/100) 2]

/-! ### Helper lemmas -/

/-- `pmin` of a non-empty list is a member that is below every member. -/
theorem pmin_spec (x : ℚ) (xs : List ℚ) :
    pmin (x :: xs) ∈ x :: xs ∧ ∀ q ∈ x :: xs, pmin (x :: xs) ≤ q := by
  induction xs generalizing x with
  | nil =>
    refine ⟨by simp [pmin], ?_⟩
    intro q hq
    simp only [List.mem_singleton] at hq
    simp [pmin, hq]
  | cons y ys ih =>
    have hy := ih y
    constructor
    · rcases le_total x (pmin (y :: ys)) with h | h
      · simp [pmin, min_eq_left h]
      · have hmem := hy.1
        show min x (pmin (y :: ys)) ∈ x :: y :: ys
        rw [min_eq_right h]
        exact List.mem_cons_of_mem x hmem
    · intro q hq
      rcases List.mem_cons.mp hq with rfl | hq
      · exact min_le_left _ _
      · exact le_trans (min_le_right _ _) (hy.2 q hq)

/-- `numpy.random.uniform(lo, hi)` lands in the half-open interval
`[lo, hi)` whenever the raw sample is in `[0, 1)`. -/
theorem npUniform_mem (lo hi v : ℚ) (hlt : lo < hi) (h0 : 0 ≤ v)
    (h1 : v < 1) : lo ≤ npUniform lo hi v ∧ npUniform lo hi v < hi := by
  unfold npUniform
  constructor
  · nlinarith
  · nlinarith

/-! ### C1: the risk-score formula -/

/-- C1: for every gene with at least one variant record, the risk-score
calculator returns exactly `0.4 * (-log10 min_p_value) + 0.4 *
mean_odds_ratio + 0.2 * variant_count` of that gene's records. -/
theorem calculate_risk_score_formula (df : List VariantRecord) (g : String)
    (h : geneRecords df g ≠ []) :
    calculate_risk_score (geneRecords df g) =
      0.4 * (-Real.logb 10 ((min_p_value df g : ℚ) : ℝ))
        + 0.4 * ((mean_odds_ratio df g : ℚ) : ℝ)
        + 0.2 * (variant_count df g : ℝ) := by
  simp only [calculate_risk_score, min_p_value, mean_odds_ratio,
    variant_count]
  ring

/-- Witness for C1 on a one-record dataset. -/
theorem calculate_risk_score_formula_witness :
    geneRecords [sampleRecord "ACE2" (1/100) 2] "ACE2" ≠ [] ∧
    calculate_risk_score (geneRecords [sampleRecord "ACE2" (1/100) 2] "ACE2") =
      0.4 * (-Real.logb 10
        ((min_p_value [sampleRecord "ACE2" (1/100) 2] "ACE2" : ℚ) : ℝ))
        + 0.4 * ((mean_odds_ratio [sampleRecord "ACE2" (1/100) 2] "ACE2" : ℚ) : ℝ)
        + 0.2 * (variant_count [sampleRecord "ACE2" (1/100) 2] "ACE2" : ℝ) :=
  ⟨by decide,
   calculate_risk_score_formula [sampleRecord "ACE2" (1/100) 2] "ACE2"
     (by decide)⟩

/-! ### C5: strict monotonicity of the risk score -/

/-- C5: with mean odds ratio and variant count fixed, a strictly smaller
(positive) minimum p-value gives a strictly larger risk score; with
minimum p-value and variant count fixed, a strictly larger mean odds
ratio gives a strictly larger risk score. -/
theorem calculate_risk_score_strict_mono (d₁ d₂ : List VariantRecord)
    (h₁ : d₁ ≠ []) (h₂ : d₂ ≠ []) (hcnt : d₁.length = d₂.length) :
    (0 < pmin (d₁.map (·.p_value)) →
      pmin (d₁.map (·.p_value)) < pmin (d₂.map (·.p_value)) →
      pmean (d₁.map (·.odds_ratio)) = pmean (d₂.map (·.odds_ratio)) →
      calculate_risk_score d₂ < calculate_risk_score d₁) ∧
    (pmin (d₁.map (·.p_value)) = pmin (d₂.map (·.p_value)) →
      pmean (d₂.map (·.odds_ratio)) < pmean (d₁.map (·.odds_ratio)) →
      calculate_risk_score d₂ < calculate_risk_score d₁) := by
  constructor
  · intro hpos hlt hmean
    have hlog : Real.logb 10 ((pmin (d₁.map (·.p_value)) : ℚ) : ℝ) <
        Real.logb 10 ((pmin (d₂.map (·.p_value)) : ℚ) : ℝ) :=
      Real.logb_lt_logb (by norm_num) (by exact_mod_cast hpos)
        (by exact_mod_cast hlt)
    simp only [calculate_risk_score, hmean, hcnt]
    linarith
  · intro hmin hmean
    have hm : ((pmean (d₂.map (·.odds_ratio)) : ℚ) : ℝ) <
        ((pmean (d₁.map (·.odds_ratio)) : ℚ) : ℝ) := by exact_mod_cast hmean
    simp only [calculate_risk_score, hmin, hcnt]
    linarith

/-- Witness for C5 at two one-record datasets with p-values `1/100 < 1/10`
and equal mean odds ratio. -/
theorem calculate_risk_score_strict_mono_witness :
    ([sampleRecord "ACE2" (1/100) 2] : List VariantRecord) ≠ [] ∧
    ([sampleRecord "ACE2" (1/10) 2] : List VariantRecord) ≠ [] ∧
    (0 : ℚ) < pmin ([sampleRecord "ACE2" (1/100) 2].map (·.p_value)) ∧
    pmin ([sampleRecord "ACE2" (1/100) 2].map (·.p_value)) <
      pmin ([sampleRecord "ACE2" (1/10) 2].map (·.p_value)) ∧
    calculate_risk_score [sampleRecord "ACE2" (1/10) 2] <
      calculate_risk_score [sampleRecord "ACE2" (1/100) 2] :=
  ⟨by decide, by decide, by norm_num [pmin, sampleRecord],
   by norm_num [pmin, sampleRecord],
   (calculate_risk_score_strict_mono
       [sampleRecord "ACE2" (1/100) 2] [sampleRecord "ACE2" (1/10) 2]
       (by decide) (by decide) rfl).1 (by norm_num [pmin, sampleRecord])
     (by norm_num [pmin, sampleRecord]) rfl⟩

/-! ### C2: pathway enrichment against the fixed taxonomy -/

/-- For a duplicate-free non-empty pathway gene list the divisor
`len(genes)` agrees with the size of the pathway's gene set. -/
theorem enrichment_score_eq_div_card (genes : List String)
    (ug : Finset String) (hnd : genes.Nodup) (hne : genes ≠ []) :
    enrichment_score genes ug =
      (pathwayOverlap genes ug : ℚ) / (genes.toFinset.card : ℚ) := by
  have hlen : 0 < genes.length := List.length_pos.mpr hne
  rw [enrichment_score, if_pos hlen, List.toFinset_card_of_nodup hnd]

/-- C2: for every pathway in the fixed taxonomy, the enrichment score is
the overlap with the dataset's distinct host genes divided by the size of
the pathway's gene set; and an empty gene set yields score `0` (the
guarded branch, no division). -/
theorem pathway_enrichment_taxonomy (df : List VariantRecord) :
    (∀ pr ∈ pathway_categories,
      enrichment_score pr.2 (hostGenes df) =
        (pathwayOverlap pr.2 (hostGenes df) : ℚ) /
          ((pr.2).toFinset.card : ℚ)) ∧
    (∀ ug : Finset String, enrichment_score [] ug = 0) := by
  constructor
  · intro pr hpr
    fin_cases hpr <;>
      exact enrichment_score_eq_div_card _ _ (by decide) (by decide)
  · intro ug
    simp [enrichment_score]

/-- Witness for C2 at the Viral Entry pathway and the three-record
fixture dataset. -/
theorem pathway_enrichment_taxonomy_witness :
    ("Viral Entry", ["ACE2", "TMPRSS2"]) ∈ pathway_categories ∧
    enrichment_score ["ACE2", "TMPRSS2"] (hostGenes fixtureDf) =
      (pathwayOverlap ["ACE2", "TMPRSS2"] (hostGenes fixtureDf) : ℚ) /
        ((["ACE2", "TMPRSS2"] : List String).toFinset.card : ℚ) :=
  ⟨by decide,
   (pathway_enrichment_taxonomy fixtureDf).1
     ("Viral Entry", ["ACE2", "TMPRSS2"]) (by decide)⟩

/-! ### C10: enrichment scores are ratios in [0, 1] -/

/-- C10: for a non-empty pathway gene list, the overlap is at most the
size of the pathway's gene set, and the enrichment score lies in
`[0, 1]`. -/
theorem enrichment_score_bounds (genes : List String) (ug : Finset String)
    (h : genes ≠ []) :
    pathwayOverlap genes ug ≤ genes.toFinset.card ∧
    0 ≤ enrichment_score genes ug ∧ enrichment_score genes ug ≤ 1 := by
  have hover : pathwayOverlap genes ug ≤ genes.toFinset.card :=
    Finset.card_le_card Finset.inter_subset_left
  have hlen : 0 < genes.length := List.length_pos.mpr h
  refine ⟨hover, ?_, ?_⟩
  · rw [enrichment_score, if_pos hlen]
    positivity
  · rw [enrichment_score, if_pos hlen]
    rw [div_le_one (by exact_mod_cast hlen)]
    have : pathwayOverlap genes ug ≤ genes.length :=
      le_trans hover genes.toFinset_card_le
    exact_mod_cast this

/-- Witness for C10 on the Viral Entry gene list and a singleton dataset
gene set. -/
theorem enrichment_score_bounds_witness :
    (["ACE2", "TMPRSS2"] : List String) ≠ [] ∧
    pathwayOverlap ["ACE2", "TMPRSS2"] {"ACE2"} ≤
      (["ACE2", "TMPRSS2"] : List String).toFinset.card ∧
    0 ≤ enrichment_score ["ACE2", "TMPRSS2"] {"ACE2"} ∧
    enrichment_score ["ACE2", "TMPRSS2"] {"ACE2"} ≤ 1 :=
  ⟨by decide, enrichment_score_bounds ["ACE2", "TMPRSS2"] {"ACE2"} (by decide)⟩

/-! ### C9: generator determinism -/

/-- C9: the dataset generator is a function of the pseudo-random draws
alone — two runs fed equal `random`-module streams and equal numpy
streams produce identical tables, every field of every record equal. -/
theorem generate_covid_risk_variants_deterministic (n : ℕ)
    (c₁ c₂ : ℕ → ℕ) (u₁ u₂ : ℕ → ℚ)
    (hc : ∀ k, c₁ k = c₂ k) (hu : ∀ k, u₁ k = u₂ k) :
    generate_covid_risk_variants n c₁ u₁ =
      generate_covid_risk_variants n c₂ u₂ := by
  unfold generate_covid_risk_variants
  apply List.map_congr_left
  intro i _
  simp [genVariant, hc, hu]

/-- Witness for C9 at `n = 3` and concrete equal streams. -/
theorem generate_covid_risk_variants_deterministic_witness :
    generate_covid_risk_variants 3 (fun k => k) (fun _ => 1/2) =
      generate_covid_risk_variants 3 (fun k => 0 + k) (fun _ => 2/4) :=
  generate_covid_risk_variants_deterministic 3 _ _ _ _
    (fun k => (Nat.zero_add k).symm) (fun _ => by norm_num)

/-! ### C6: shape and ranges of the generated table -/

/-- C6 (amended): the generator emits exactly `n` records (each carrying
the declared fields by construction), and whenever every raw numpy sample
lies in `[0, 1)`, every `p_value` lies in the half-open interval
`[1e-8, 5e-5)` and every `odds_ratio` in `[1.1, 3.5)`. -/
theorem generate_covid_risk_variants_shape_ranges (n : ℕ)
    (c : ℕ → ℕ) (u : ℕ → ℚ) (hu : ∀ k, 0 ≤ u k ∧ u k < 1) :
    (generate_covid_risk_variants n c u).length = n ∧
    ∀ r ∈ generate_covid_risk_variants n c u,
      (1e-8 : ℚ) ≤ r.p_value ∧ r.p_value < 5e-5 ∧
      (1.1 : ℚ) ≤ r.odds_ratio ∧ r.odds_ratio < 3.5 := by
  constructor
  · simp [generate_covid_risk_variants]
  · intro r hr
    simp only [generate_covid_risk_variants, List.mem_map,
      List.mem_range] at hr
    obtain ⟨i, -, rfl⟩ := hr
    have hp := npUniform_mem 1e-8 5e-5 (u (3 * i)) (by norm_num)
      (hu (3 * i)).1 (hu (3 * i)).2
    have ho := npUniform_mem 1.1 3.5 (u (3 * i + 2)) (by norm_num)
      (hu (3 * i + 2)).1 (hu (3 * i + 2)).2
    exact ⟨hp.1, hp.2, ho.1, ho.2⟩

/-- Witness for C6 at `n = 2` and the constant stream `1/2`. -/
theorem generate_covid_risk_variants_shape_ranges_witness :
    ((0 : ℚ) ≤ 1/2 ∧ (1/2 : ℚ) < 1) ∧
    (generate_covid_risk_variants 2 (fun _ => 0) (fun _ => 1/2)).length = 2 ∧
    ∀ r ∈ generate_covid_risk_variants 2 (fun _ => 0) (fun _ => 1/2),
      (1e-8 : ℚ) ≤ r.p_value ∧ r.p_value < 5e-5 ∧
      (1.1 : ℚ) ≤ r.odds_ratio ∧ r.odds_ratio < 3.5 :=
  ⟨⟨by norm_num, by norm_num⟩,
   generate_covid_risk_variants_shape_ranges 2 (fun _ => 0) (fun _ => 1/2)
     (fun _ => ⟨by norm_num, by norm_num⟩)⟩

/-- Counterexample to C6 as stated: `numpy.random.uniform(lo, hi)` samples
the half-open interval `[lo, hi)`, so the raw sample `0` — a legal value of
`random_sample()` — makes the generated `p_value` exactly `1e-8`, which is
not strictly inside the open interval `(1e-8, 5e-5)`. -/
theorem generate_covid_risk_variants_open_interval_false :
    ((0 : ℚ) ≤ 0 ∧ (0 : ℚ) < 1) ∧
    ((generate_covid_risk_variants 1 (fun _ => 0) (fun _ => 0)).getD 0
        default).p_value = 1e-8 ∧
    ¬ ((1e-8 : ℚ) <
        ((generate_covid_risk_variants 1 (fun _ => 0) (fun _ => 0)).getD 0
          default).p_value) := by
  refine ⟨⟨le_refl 0, by norm_num⟩, ?_, ?_⟩ <;>
    simp [generate_covid_risk_variants, genVariant, npUniform]

/-! ### C3: gene-aggregator soundness -/

/-- The size of the `groupby` group of `g` is the number of occurrences of
`g` in the `host_gene` column. -/
theorem length_filter_host (df : List VariantRecord) (g : String) :
    (df.filter fun r => r.host_gene == g).length =
      (df.map (·.host_gene)).count g := by
  induction df with
  | nil => rfl
  | cons r rest ih =>
    by_cases h : r.host_gene = g
    · simp [List.filter_cons, List.count_cons, h, ih]
    · simp [List.filter_cons, List.count_cons, h, ih]

/-- The `variant_count` column sums to the number of records. -/
theorem sum_variant_count (df : List VariantRecord) :
    ∑ g ∈ hostGenes df, variant_count df g = df.length := by
  calc ∑ g ∈ hostGenes df, variant_count df g
      = ∑ g ∈ (df.map (·.host_gene)).toFinset,
          (df.map (·.host_gene)).count g :=
        Finset.sum_congr rfl fun g _ => length_filter_host df g
    _ = (df.map (·.host_gene)).length := by
        simpa using
          Multiset.toFinset_sum_count_eq
            (↑(df.map (·.host_gene)) : Multiset String)
    _ = df.length := List.length_map df _

/-- C3: for every non-empty dataset, the variant counts over all genes sum
to the record count, and each gene's `min_p_value` is a genuine minimum of
the `p_value` column of exactly that gene's records. -/
theorem gene_aggregator_sound (df : List VariantRecord) (hne : df ≠ []) :
    (∑ g ∈ hostGenes df, variant_count df g) = df.length ∧
    ∀ g ∈ hostGenes df,
      min_p_value df g ∈ (geneRecords df g).map (·.p_value) ∧
      ∀ q ∈ (geneRecords df g).map (·.p_value), min_p_value df g ≤ q := by
  refine ⟨sum_variant_count df, ?_⟩
  intro g hg
  have hex : ∃ r ∈ df, r.host_gene = g := by
    simpa [hostGenes, List.mem_toFinset] using hg
  obtain ⟨r, hr, hrg⟩ := hex
  have hmem : r ∈ geneRecords df g := by
    simp [geneRecords, List.mem_filter, hr, hrg]
  cases hlist : (geneRecords df g).map (·.p_value) with
  | nil =>
    exfalso
    have hpm : r.p_value ∈ (geneRecords df g).map (·.p_value) :=
      List.mem_map_of_mem _ hmem
    rw [hlist] at hpm
    exact absurd hpm (List.not_mem_nil _)
  | cons x xs =>
    have hspec := pmin_spec x xs
    constructor
    · simp only [min_p_value]
      rw [hlist]
      exact hspec.1
    · intro q hq
      simp only [min_p_value]
      rw [hlist]
      exact hspec.2 q hq

/-- Witness for C3 on the three-record fixture. -/
theorem gene_aggregator_sound_witness :
    fixtureDf ≠ [] ∧
    ((∑ g ∈ hostGenes fixtureDf, variant_count fixtureDf g) =
        fixtureDf.length ∧
      ∀ g ∈ hostGenes fixtureDf,
        min_p_value fixtureDf g ∈
          (geneRecords fixtureDf g).map (·.p_value) ∧
        ∀ q ∈ (geneRecords fixtureDf g).map (·.p_value),
          min_p_value fixtureDf g ≤ q) :=
  ⟨by decide, gene_aggregator_sound fixtureDf (by decide)⟩

/-! ### Network-construction lemmas -/

/-- With `interaction_probability = 0` the Bernoulli test
`np.random.random() < 0` never passes, so the edge loop leaves the state
untouched. -/
theorem addRandomEdges_zero (u : ℕ → ℚ) (hu : ∀ n, 0 ≤ u n) :
    ∀ (l : List (String × String)) (k : ℕ)
      (st : Finset (Sym2 String) × List (Sym2 String × ℚ)),
      addRandomEdges 0 u l k st = st := by
  intro l
  induction l with
  | nil => intro k st; rfl
  | cons q rest ih =>
    intro k st
    obtain ⟨g1, g2⟩ := q
    obtain ⟨es, ws⟩ := st
    simp only [addRandomEdges]
    rw [if_neg (not_lt.mpr (hu k))]
    exact ih _ _

/-- With `interaction_probability = 1` the Bernoulli test
`np.random.random() < 1` always passes, so every visited pair is added. -/
theorem addRandomEdges_one (u : ℕ → ℚ) (hu : ∀ n, u n < 1) :
    ∀ (l : List (String × String)) (k : ℕ) (es : Finset (Sym2 String))
      (ws : List (Sym2 String × ℚ)),
      (addRandomEdges 1 u l k (es, ws)).1 =
        es ∪ (l.map Sym2.mk).toFinset := by
  intro l
  induction l with
  | nil => intro k es ws; simp [addRandomEdges]
  | cons q rest ih =>
    intro k es ws
    obtain ⟨g1, g2⟩ := q
    simp only [addRandomEdges]
    rw [if_pos (hu k), ih]
    simp [List.toFinset_cons, Finset.insert_union, Finset.union_insert]

/-- Every edge the loop adds comes from a visited pair. -/
theorem addRandomEdges_subset (p : ℚ) (u : ℕ → ℚ) :
    ∀ (l : List (String × String)) (k : ℕ) (es : Finset (Sym2 String))
      (ws : List (Sym2 String × ℚ)),
      (addRandomEdges p u l k (es, ws)).1 ⊆
        es ∪ (l.map Sym2.mk).toFinset := by
  intro l
  induction l with
  | nil => intro k es ws; simp [addRandomEdges]
  | cons q rest ih =>
    intro k es ws
    obtain ⟨g1, g2⟩ := q
    simp only [addRandomEdges]
    by_cases h : u k < p
    · rw [if_pos h]
      refine (ih _ _ _).trans ?_
      simp only [List.map_cons, List.toFinset_cons, Finset.insert_union,
        Finset.union_insert]
      exact Finset.Subset.refl _
    · rw [if_neg h]
      refine (ih _ _ _).trans ?_
      simp only [List.map_cons, List.toFinset_cons]
      exact Finset.union_subset_union_right (Finset.subset_insert _ _)

/-- The double loop visits `choose 2` many pairs. -/
theorem candidatePairs_length (l : List String) :
    (candidatePairs l).length = l.length.choose 2 := by
  induction l with
  | nil => rfl
  | cons g rest ih =>
    have h2 : Nat.choose (rest.length + 1) 2 =
        rest.length.choose 1 + rest.length.choose 2 := rfl
    simp only [candidatePairs, List.length_append, List.length_map, ih,
      List.length_cons, h2, Nat.choose_one_right]

/-- Both components of a visited pair are input genes. -/
theorem mem_candidatePairs (l : List String) (a b : String)
    (h : (a, b) ∈ candidatePairs l) : a ∈ l ∧ b ∈ l := by
  induction l with
  | nil => simp [candidatePairs] at h
  | cons g rest ih =>
    simp only [candidatePairs, List.mem_append] at h
    rcases h with h1 | h2
    · rcases List.mem_map.mp h1 with ⟨x, hx, hxe⟩
      obtain ⟨rfl, rfl⟩ := Prod.mk.inj hxe
      exact ⟨List.mem_cons_self _ _, List.mem_cons_of_mem _ hx⟩
    · have hb := ih h2
      exact ⟨List.mem_cons_of_mem _ hb.1, List.mem_cons_of_mem _ hb.2⟩

/-- On a duplicate-free input every visited pair has distinct genes. -/
theorem candidatePairs_ne (l : List String) (hnd : l.Nodup) :
    ∀ q ∈ candidatePairs l, q.1 ≠ q.2 := by
  induction l with
  | nil => intro q hq; simp [candidatePairs] at hq
  | cons g rest ih =>
    obtain ⟨hg, hrest⟩ := List.nodup_cons.mp hnd
    intro q hq
    simp only [candidatePairs, List.mem_append] at hq
    rcases hq with h1 | h2
    · rcases List.mem_map.mp h1 with ⟨x, hx, rfl⟩
      intro hgx
      simp only at hgx
      exact hg (hgx ▸ hx)
    · exact ih hrest q h2

/-- On a duplicate-free input no unordered pair is visited twice. -/
theorem candidatePairs_sym2_nodup (l : List String) (hnd : l.Nodup) :
    ((candidatePairs l).map Sym2.mk).Nodup := by
  induction l with
  | nil => simp [candidatePairs]
  | cons g rest ih =>
    obtain ⟨hg, hrest⟩ := List.nodup_cons.mp hnd
    simp only [candidatePairs, List.map_append, List.map_map]
    refine List.Nodup.append ?_ (ih hrest) ?_
    · refine List.Nodup.map_on ?_ hrest
      intro x hx y hy hxy
      rcases Sym2.mk_eq_mk_iff.mp hxy with heq | heq
      · exact (Prod.mk.inj heq).2
      · obtain ⟨h1, h2⟩ := Prod.mk.inj heq
        exact absurd (h1 ▸ hy) hg
    · intro e he1 he2
      rcases List.mem_map.mp he1 with ⟨x, hx, rfl⟩
      rcases List.mem_map.mp he2 with ⟨q, hq, hqe⟩
      obtain ⟨q1, q2⟩ := q
      have hqmem := mem_candidatePairs rest q1 q2 hq
      simp only [Function.comp_apply] at hqe
      rcases Sym2.mk_eq_mk_iff.mp hqe with heq | heq
      · obtain ⟨h1, h2⟩ := Prod.mk.inj heq
        exact hg (h1 ▸ hqmem.1)
      · rw [Prod.swap_prod_mk] at heq
        obtain ⟨h1, h2⟩ := Prod.mk.inj heq
        exact hg (h2 ▸ hqmem.2)

/-- Every unordered pair of distinct input genes is visited. -/
theorem sym2_mem_candidatePairs (l : List String) :
    ∀ a b, a ∈ l → b ∈ l → a ≠ b →
      Sym2.mk (a, b) ∈ (candidatePairs l).map Sym2.mk := by
  induction l with
  | nil => intro a b ha; simp at ha
  | cons g rest ih =>
    intro a b ha hb hab
    simp only [candidatePairs, List.map_append, List.map_map,
      List.mem_append]
    rcases List.mem_cons.mp ha with ha' | ha'
    · subst ha'
      left
      have hbr : b ∈ rest := by
        rcases List.mem_cons.mp hb with hb' | hb'
        · exact absurd hb'.symm hab
        · exact hb'
      exact List.mem_map.mpr ⟨b, hbr, rfl⟩
    · rcases List.mem_cons.mp hb with hb' | hb'
      · subst hb'
        left
        exact List.mem_map.mpr ⟨a, ha', Sym2.eq_swap⟩
      · right
        exact ih a b ha' hb' hab

/-! ### C4: edge counts at the extreme probabilities -/

/-- C4: on distinct genes, probability `0` yields a graph with no edges
and probability `1` yields the complete graph with `k * (k - 1) / 2`
edges. -/
theorem create_test_network_edge_extremes (genes : List String)
    (u : ℕ → ℚ) (hnd : genes.Nodup) (hu : ∀ n, 0 ≤ u n ∧ u n < 1) :
    (create_test_network genes 0 u).edges.card = 0 ∧
    (create_test_network genes 1 u).edges.card =
      genes.length * (genes.length - 1) / 2 := by
  constructor
  · have h := addRandomEdges_zero u (fun n => (hu n).1)
      (candidatePairs genes) 0 (∅, [])
    simp [create_test_network, h]
  · have h := addRandomEdges_one u (fun n => (hu n).2)
      (candidatePairs genes) 0 ∅ []
    show (addRandomEdges 1 u (candidatePairs genes) 0 (∅, [])).1.card = _
    rw [h, Finset.empty_union,
      List.toFinset_card_of_nodup (candidatePairs_sym2_nodup genes hnd),
      List.length_map, candidatePairs_length, Nat.choose_two_right]

/-- Witness for C4 on three distinct genes and the constant stream
`1/2`. -/
theorem create_test_network_edge_extremes_witness :
    (["A", "B", "C"] : List String).Nodup ∧
    ((0 : ℚ) ≤ 1/2 ∧ (1/2 : ℚ) < 1) ∧
    (create_test_network ["A", "B", "C"] 0 fun _ => 1/2).edges.card = 0 ∧
    (create_test_network ["A", "B", "C"] 1 fun _ => 1/2).edges.card = 3 := by
  refine ⟨by decide, ⟨by norm_num, by norm_num⟩, ?_⟩
  have h := create_test_network_edge_extremes ["A", "B", "C"]
    (fun _ => 1/2) (by decide) (fun n => ⟨by norm_num, by norm_num⟩)
  simpa using h

/-! ### C7: pair discipline of the graph builder -/

/-- Counterexample to C7 as stated: duplicate inputs break both edge
clauses of the claim.  On `["A", "A"]` the double loop visits the index
pair `(0, 1)` whose two genes are the same symbol, and with probability
`1` it adds the self-loop `{A, A}` to the graph; and on
`["A", "B", "A"]` the loop visits the unordered pair `{A, B}` twice —
the visited pair list `[(A,B), (A,A), (B,A)]` maps to a duplicated
unordered-pair list. -/
theorem create_test_network_self_loop :
    (Sym2.IsDiag (Sym2.mk ("A", "A")) ∧
      Sym2.mk ("A", "A") ∈
        (create_test_network ["A", "A"] 1 fun _ => 1/2).edges) ∧
    ¬ ((candidatePairs ["A", "B", "A"]).map Sym2.mk).Nodup := by
  refine ⟨⟨Sym2.mk_isDiag_iff.mpr rfl, ?_⟩, ?_⟩
  · show Sym2.mk ("A", "A") ∈
      (addRandomEdges 1 (fun _ => 1/2) (candidatePairs ["A", "A"]) 0
        (∅, [])).1
    have hc : candidatePairs ["A", "A"] = [("A", "A")] := rfl
    rw [hc]
    simp only [addRandomEdges]
    rw [if_pos (by norm_num : ((1 : ℚ)/2) < 1)]
    simp [addRandomEdges]
  · intro h
    have hc : (candidatePairs ["A", "B", "A"]).map Sym2.mk =
        [Sym2.mk ("A", "B"), Sym2.mk ("A", "A"), Sym2.mk ("B", "A")] := rfl
    rw [hc] at h
    have hswap : Sym2.mk ("B", "A") = Sym2.mk ("A", "B") := Sym2.eq_swap
    exact (List.nodup_cons.mp h).1
      (List.mem_cons_of_mem _ (hswap ▸ List.mem_cons_self _ _))

/-- C7 (amended): for every input sequence the builder keeps exactly one
node per distinct gene and visits every unordered pair of distinct genes
at least once; on a duplicate-free input it additionally visits each
unordered pair at most once (so exactly once), visits no pair of equal
genes, and never adds a self-loop.  (On duplicate inputs the previous
counterexample shows both restrictions are necessary.) -/
theorem create_test_network_pair_discipline (genes : List String)
    (p : ℚ) (u : ℕ → ℚ) :
    (create_test_network genes p u).nodes.Nodup ∧
    (create_test_network genes p u).nodes.toFinset = genes.toFinset ∧
    (∀ a b, a ∈ genes → b ∈ genes → a ≠ b →
      Sym2.mk (a, b) ∈ (candidatePairs genes).map Sym2.mk) ∧
    (genes.Nodup →
      ((candidatePairs genes).map Sym2.mk).Nodup ∧
      (∀ q ∈ candidatePairs genes, q.1 ≠ q.2) ∧
      ∀ e ∈ (create_test_network genes p u).edges, ¬ e.IsDiag) := by
  have hdedup : (genes.dedup).toFinset = genes.toFinset := by
    ext a
    simp [List.mem_toFinset, List.mem_dedup]
  refine ⟨List.nodup_dedup genes, hdedup,
    sym2_mem_candidatePairs genes, fun hnd => ?_⟩
  refine ⟨candidatePairs_sym2_nodup genes hnd,
    candidatePairs_ne genes hnd, ?_⟩
  intro e he
  have he' := addRandomEdges_subset p u (candidatePairs genes) 0 ∅ [] he
  rw [Finset.empty_union, List.mem_toFinset] at he'
  rcases List.mem_map.mp he' with ⟨q, hq, rfl⟩
  rw [Sym2.isDiag_iff_proj_eq]
  exact candidatePairs_ne genes hnd q hq

/-- Witness for C7: the unconditional node and coverage clauses at the
duplicate input `["A", "A", "B"]`, and the duplicate-free clauses at
`["A", "B"]`. -/
theorem create_test_network_pair_discipline_witness :
    (create_test_network ["A", "A", "B"] 0 fun _ => 0).nodes.Nodup ∧
    (create_test_network ["A", "A", "B"] 0 fun _ => 0).nodes.toFinset =
      (["A", "A", "B"] : List String).toFinset ∧
    Sym2.mk ("A", "B") ∈
      (candidatePairs ["A", "A", "B"]).map Sym2.mk ∧
    ((["A", "B"] : List String).Nodup ∧
      ∀ e ∈ (create_test_network ["A", "B"] 0 fun _ => 0).edges,
        ¬ e.IsDiag) :=
  ⟨(create_test_network_pair_discipline ["A", "A", "B"] 0 fun _ => 0).1,
   (create_test_network_pair_discipline ["A", "A", "B"] 0 fun _ => 0).2.1,
   (create_test_network_pair_discipline ["A", "A", "B"] 0
       fun _ => 0).2.2.1 "A" "B" (by decide) (by decide) (by decide),
   ⟨by decide,
    ((create_test_network_pair_discipline ["A", "B"] 0 fun _ => 0).2.2.2
        (by decide)).2.2⟩⟩

/-! ### C8: the centrality guard -/

/-- C8: the metrics step returns nothing on a zero-edge graph — without
consulting the centrality collaborators at all — and computes the
centralities exactly when the edge count is positive. -/
theorem networkMetricsStep_guard (bc bc' : TestGraph → List (String × ℚ))
    (G : TestGraph) :
    (G.edges.card = 0 →
      networkMetricsStep bc G = none ∧
      networkMetricsStep bc G = networkMetricsStep bc' G) ∧
    (0 < G.edges.card →
      networkMetricsStep bc G = some (degree_centrality G, bc G)) := by
  constructor
  · intro h
    constructor <;> simp [networkMetricsStep, h]
  · intro h
    simp [networkMetricsStep, h]

/-- Witness for C8 on a concrete zero-edge graph. -/
theorem networkMetricsStep_guard_witness :
    (TestGraph.mk ["A"] ∅).edges.card = 0 ∧
    networkMetricsStep (fun _ => []) (TestGraph.mk ["A"] ∅) = none :=
  ⟨rfl,
   ((networkMetricsStep_guard (fun _ => []) (fun _ => [])
       (TestGraph.mk ["A"] ∅)).1 rfl).1⟩

end GRF
